import Mathlib

/-!
Shallow embedding of the algorithmic core of the RF-detectie repository
(RSSI-based ranging, calibration fitting, multilateration, anchor
assignment, sample buffers).  Python float arithmetic is modelled over ℝ
(ℚ for the purely discrete buffer/assignment state), lists model Python
lists/deques in insertion order, and association lists model dicts.
-/

/-- Association-list lookup: model of Python `dict.get` / `d[k]`
(keys are unique in every dict we model, so first-match semantics agree). -/
def alookup {α β : Type} [DecidableEq α] : List (α × β) → α → Option β
  | [], _ => none
  | (k, v) :: rest, a => if k = a then some v else alookup rest a

/-! Section: path-loss model: `Localisatie-Mediaan.py` -/

/-- Base-10 logarithm, as used via `np.log10`. -/
noncomputable def log10 (x : ℝ) : ℝ := Real.logb 10 x

/-- Model of `rssi_to_dist(rssi, rssi1m, n)` from `Localisatie-Mediaan.py`:
`10 ** ((rssi1m - rssi) / (10.0 * n))`. -/
noncomputable def rssi_to_dist (rssi rssi1m n : ℝ) : ℝ :=
  (10 : ℝ) ^ ((rssi1m - rssi) / (10 * n))

/-- Forward log-distance model `rssi1m - 10*n*log10(d)`; in the source this
is the fitted line `a + b*log10(d)` of `Kalibratie-Mediaan.py` with
`a = rssi1m`, `b = -10*n` (the relation `n = -b/10` is printed by
`fit_log_model`). -/
noncomputable def rssiFromDistance (d rssi1m n : ℝ) : ℝ :=
  rssi1m - 10 * n * log10 d

/-! Section: multilateration: `trilaterate` (week-11 GUI) and
`trilaterate_3anchors` (`rf_localisatie/server.py`) -/

/-- Model of `np.linalg.lstsq` for a 2x2 system `[[a, b], [c, d]] @ [x, y] = [y1, y2]`:
the unique solution when the matrix is invertible, and the minimum-norm
least-squares solution (Moore-Penrose, `Aᵀ/‖A‖_F²` for rank ≤ 1) otherwise. -/
noncomputable def lstsq2x2 (a b c d y1 y2 : ℝ) : ℝ × ℝ :=
  if a * d - b * c = 0 then
    ((a * y1 + c * y2) / (a ^ 2 + b ^ 2 + c ^ 2 + d ^ 2),
     (b * y1 + d * y2) / (a ^ 2 + b ^ 2 + c ^ 2 + d ^ 2))
  else
    ((d * y1 - b * y2) / (a * d - b * c), (a * y2 - c * y1) / (a * d - b * c))

/-- Model of `trilaterate(points_xy, dists)` from `Localisatie-Mediaan.py`,
instantiated at 3 anchors (its GUI call site): linearize against the first
anchor and solve the resulting 2x2 system with `np.linalg.lstsq`. -/
noncomputable def trilaterate (p1 p2 p3 : ℝ × ℝ) (d1 d2 d3 : ℝ) : ℝ × ℝ :=
  lstsq2x2 (2 * (p2.1 - p1.1)) (2 * (p2.2 - p1.2))
    (2 * (p3.1 - p1.1)) (2 * (p3.2 - p1.2))
    ((p2.1 ^ 2 + p2.2 ^ 2 - d2 ^ 2) - (p1.1 ^ 2 + p1.2 ^ 2 - d1 ^ 2))
    ((p3.1 ^ 2 + p3.2 ^ 2 - d3 ^ 2) - (p1.1 ^ 2 + p1.2 ^ 2 - d1 ^ 2))

namespace Server

/-- Constant `A0` from `rf_localisatie/server.py` (RSSI at 1 m). -/
noncomputable def A0 : ℝ := -45

/-- Constant `N` from `rf_localisatie/server.py` (path-loss exponent). -/
noncomputable def N : ℝ := 2.2

/-- Model of `rssi_to_distance(rssi)` from `rf_localisatie/server.py`
(default parameters `a0=A0, n=N`). -/
noncomputable def rssi_to_distance (rssi : ℝ) : ℝ :=
  (10 : ℝ) ^ ((A0 - rssi) / (10 * N))

/-- Model of `trilaterate_3anchors` from `rf_localisatie/server.py`, after the
3-anchor length check and the sort by id: positions `p1 p2 p3` with their
reported RSSI values `r1 r2 r3`; distances come from `rssi_to_distance`,
and the 2x2 system is solved by Cramer unless `|det| < 1e-9`, in which
case the function silently returns the coordinate `(0.0, 0.0)`. -/
noncomputable def trilaterate_3anchors (p1 p2 p3 : ℝ × ℝ) (r1 r2 r3 : ℝ) : ℝ × ℝ :=
  let d1 := rssi_to_distance r1
  let d2 := rssi_to_distance r2
  let d3 := rssi_to_distance r3
  let A11 := 2 * (p2.1 - p1.1)
  let A12 := 2 * (p2.2 - p1.2)
  let A21 := 2 * (p3.1 - p1.1)
  let A22 := 2 * (p3.2 - p1.2)
  let b1 := (p2.1 ^ 2 + p2.2 ^ 2 - d2 ^ 2) - (p1.1 ^ 2 + p1.2 ^ 2 - d1 ^ 2)
  let b2 := (p3.1 ^ 2 + p3.2 ^ 2 - d3 ^ 2) - (p1.1 ^ 2 + p1.2 ^ 2 - d1 ^ 2)
  let det := A11 * A22 - A12 * A21
  if |det| < 1e-9 then (0, 0)
  else ((b1 * A22 - A12 * b2) / det, (-b1 * A21 + A11 * b2) / det)

end Server

/-! Section: sample buffers -/

/-- Constant `CHUNK_N` from week-11 `Localisatie-Mediaan.py`. -/
def CHUNK_N : ℕ := 100

/-- Constant `AVG_N_MSGS` from week-4 `computer 3 pi's inlezen.py`. -/
def AVG_N_MSGS : ℕ := 10

/-- Constant `MED_WINDOW` from week-11 `Kalibratie-Mediaan.py`. -/
def MED_WINDOW : ℕ := 500

/-- Constant `MED_WINDOW` from `Werken met een Mediaan/Kalibratie Tool.py`. -/
def MED_WINDOW_TOOL : ℕ := 250

/-- Model of `collections.deque(maxlen=cap).append(x)`: append on the right,
evicting from the left when the capacity is exceeded. -/
def dequePush (cap : ℕ) (buf : List ℚ) (x : ℚ) : List ℚ :=
  if cap < (buf ++ [x]).length then (buf ++ [x]).drop ((buf ++ [x]).length - cap)
  else buf ++ [x]

/-- Insert into a sorted list (ascending). -/
def insertSorted (x : ℚ) : List ℚ → List ℚ
  | [] => [x]
  | y :: ys => if x ≤ y then x :: y :: ys else y :: insertSorted x ys

/-- Insertion sort, ascending. -/
def sortQ : List ℚ → List ℚ
  | [] => []
  | x :: xs => insertSorted x (sortQ xs)

/-- Model of `np.median`: sort, take the middle element (odd length) or the mean of
the two middle elements (even length). -/
def medianQ (l : List ℚ) : ℚ :=
  let s := sortQ l
  if l.length % 2 = 1 then s.getD (l.length / 2) 0
  else (s.getD (l.length / 2 - 1) 0 + s.getD (l.length / 2) 0) / 2

/-- Per-anchor buffer state of the week-11 localization listener:
the deque `rssi_buf[key]` plus the last chunk median `chunk_med[key]`. -/
structure ChunkState where
  buf : List ℚ
  chunkMed : Option ℚ
deriving DecidableEq

/-- One accepted packet in the week-11 `Localisatie-Mediaan.py` listener:
`rssi_buf[key].append(rssi)`, then if `len(rssi_buf[key]) >= CHUNK_N`
compute the chunk median and `rssi_buf[key].clear()`. -/
def chunkPush (cap : ℕ) (s : ChunkState) (x : ℚ) : ChunkState :=
  if cap ≤ (dequePush cap s.buf x).length then
    ⟨[], some (medianQ (dequePush cap s.buf x))⟩
  else ⟨dequePush cap s.buf x, s.chunkMed⟩

/-- Per-anchor calibration buffer state: `buffers[key]` and `fill_on[key]`. -/
structure FreezeState where
  buf : List ℚ
  fillOn : Bool

/-- One accepted packet in the week-11 / Indienen `Kalibratie-Mediaan.py`
listener ("freeze" buffer): append only while `fill_on[key]` and
`len(buffers[key]) < MED_WINDOW`; on reaching `MED_WINDOW` set
`fill_on[key] = False`. -/
def freezePush (W : ℕ) (s : FreezeState) (x : ℚ) : FreezeState :=
  if s.fillOn = true ∧ s.buf.length < W then
    ⟨s.buf ++ [x], decide (s.buf.length + 1 < W)⟩
  else s

/-- One accepted packet in `Werken met een Mediaan/Kalibratie Tool.py`:
`if fill_on.get(key, False): buffers[key].append(rssi)` — the deque
(maxlen `MED_WINDOW`) rolls and `fill_on` is never switched off here. -/
def toolPush (W : ℕ) (s : FreezeState) (x : ℚ) : FreezeState :=
  if s.fillOn = true then ⟨dequePush W s.buf x, s.fillOn⟩ else s

/-- The `Start buffer` button handler `on_start` of the calibration GUIs:
`clear_buffer(k)` then `fill_on[k] = True`. -/
def startBuffer (_s : FreezeState) : FreezeState := ⟨[], true⟩

/-! Section: anchor assignment -/

/-- Constant `ANC_ORDER`. -/
def ANC_ORDER : List String := ["A", "B", "C"]

/-- Auto-assignment state of the calibration listeners (and of the week-4
localization listener): `ip_to_key` and `unused_keys`. -/
structure AssignState where
  ipToKey : List (String × String)
  unusedKeys : List String

/-- Initial assignment state: `ip_to_key, unused_keys = {}, ANC_ORDER.copy()`. -/
def assignInit : AssignState := ⟨[], ANC_ORDER⟩

/-- First-come-first-served auto-assignment on packet arrival
(`Kalibratie-Mediaan.py` listener): `key = ip_to_key.get(ip)`;
`if key is None and unused_keys: key = unused_keys.pop(0); ip_to_key[ip] = key`. -/
def calObserve (s : AssignState) (ip : String) : AssignState :=
  if (alookup s.ipToKey ip).isSome then s
  else
    match s.unusedKeys with
    | [] => s
    | k :: rest => ⟨s.ipToKey ++ [(ip, k)], rest⟩

/-- The IP-assignment text box `on_submit_ip` of week-11
`Localisatie-Mediaan.py` (`make_ip_assign_box`), with `txt` standing for
the already-whitespace-stripped input (`ip = txt.strip()`): an empty input
deletes every binding to `label_key`; otherwise delete every binding to
`label_key` or of this ip, then bind `ip -> label_key` (appended, as dict
insertion order does). -/
def on_submit_ip (m : List (String × String)) (labelKey txt : String) : List (String × String) :=
  if txt = ("") then m.filter (fun p => ¬ p.2 = labelKey)
  else (m.filter (fun p => ¬ (p.2 = labelKey ∨ p.1 = txt))) ++ [(txt, labelKey)]

/-- System state of the week-11 localization GUI relevant to assignment and
buffering: `ip_to_key` and the per-key buffers. -/
structure LocState where
  ipToKey : List (String × String)
  bufs : List (String × ChunkState)
deriving DecidableEq

/-- Point update of an association list. -/
def updateAssoc (l : List (String × ChunkState)) (k : String)
    (f : ChunkState → ChunkState) : List (String × ChunkState) :=
  l.map (fun p => if p.1 = k then (p.1, f p.2) else p)

/-- One packet in the week-11 `Localisatie-Mediaan.py` listener:
`key = ip_to_key.get(ip)`; unknown senders are only logged (`continue`),
they are never bound and never reach the buffers; known senders feed
`chunkPush`.  The mapping `ip_to_key` is never mutated by the listener. -/
def locListenerStep (s : LocState) (ip : String) (rssi : ℚ) : LocState :=
  match alookup s.ipToKey ip with
  | none => s
  | some k => ⟨s.ipToKey, updateAssoc s.bufs k (fun c => chunkPush CHUNK_N c rssi)⟩

/-! Section: calibration fitter: `fit_log_model` (`Kalibratie-Mediaan.py`) -/

/-- Regressor values `x = np.log10(ds[mask])`. -/
noncomputable def fitXs (f : List (ℝ × ℝ)) : List ℝ := f.map (fun p => log10 p.1)

/-- Observed values `y = ys[mask]`. -/
noncomputable def fitYs (f : List (ℝ × ℝ)) : List ℝ := f.map (fun p => p.2)

/-- Sum of squares over a sample list. -/
noncomputable def sumXX (xs : List ℝ) : ℝ := (xs.map (fun x => x ^ 2)).sum

/-- Sum of products over zipped sample lists. -/
noncomputable def sumXY (xs ys : List ℝ) : ℝ := ((xs.zip ys).map (fun p => p.1 * p.2)).sum

/-- Determinant of the normal-equation matrix `XᵀX` for the design matrix
`X = [1, x]`: `n·Σx² - (Σx)²`. -/
noncomputable def detXX (xs : List ℝ) : ℝ := (xs.length : ℝ) * sumXX xs - xs.sum ^ 2

/-- Model of `np.linalg.lstsq(X, y)` for the design matrix `X = [1, x]`:
normal-equation solution when `X` has full column rank (`detXX ≠ 0`),
minimum-norm pseudoinverse solution otherwise (all x equal `c`:
`X⁺ = [1,c]ᵀ1ₙᵀ / (n(1+c²))`). -/
noncomputable def olsAB (xs ys : List ℝ) : ℝ × ℝ :=
  if detXX xs = 0 then
    (ys.sum / ((xs.length : ℝ) * (1 + (xs.headD 0) ^ 2)),
     (xs.headD 0) * ys.sum / ((xs.length : ℝ) * (1 + (xs.headD 0) ^ 2)))
  else
    ((sumXX xs * ys.sum - xs.sum * sumXY xs ys) / detXX xs,
     ((xs.length : ℝ) * sumXY xs ys - xs.sum * ys.sum) / detXX xs)

/-- Residual sum of squares `ss_res = np.sum((y - yhat)**2)` with `yhat = a + b*x`. -/
noncomputable def ssRes (xs ys : List ℝ) (a b : ℝ) : ℝ :=
  ((xs.zip ys).map (fun p => (p.2 - (a + b * p.1)) ^ 2)).sum

/-- Total sum of squares `ss_tot = np.sum((y - np.mean(y))**2)`. -/
noncomputable def ssTot (ys : List ℝ) : ℝ :=
  (ys.map (fun y => (y - ys.sum / ys.length) ^ 2)).sum

/-- Goodness of fit `r2 = 1.0 - ss_res/ss_tot if ss_tot > 0 else 1.0`. -/
noncomputable def r2Of (xs ys : List ℝ) (a b : ℝ) : ℝ :=
  if 0 < ssTot ys then 1 - ssRes xs ys a b / ssTot ys else 1

/-- The successful-fit result `(a, b, n = -b/10, r2)` computed on the
already-filtered pairs. -/
noncomputable def fitCore (f : List (ℝ × ℝ)) : ℝ × ℝ × ℝ × ℝ :=
  ((olsAB (fitXs f) (fitYs f)).1, (olsAB (fitXs f) (fitYs f)).2,
   -(olsAB (fitXs f) (fitYs f)).2 / 10,
   r2Of (fitXs f) (fitYs f) (olsAB (fitXs f) (fitYs f)).1
     (olsAB (fitXs f) (fitYs f)).2)

/-- Model of `fit_log_model(distances, rssi_values)` from `Kalibratie-Mediaan.py`
on a list of (distance, rssi) pairs: keep `d > 0` (the numpy mask), fail
(`None`, modelling the raised `ValueError`) when fewer than 2 pairs
remain, else return `(a, b, -b/10, r2)`. -/
noncomputable def fit_log_model (pts : List (ℝ × ℝ)) : Option (ℝ × ℝ × ℝ × ℝ) :=
  if (pts.filter (fun p => 0 < p.1)).length < 2 then none
  else some (fitCore (pts.filter (fun p => 0 < p.1)))

/-! Section: distance-band estimator: `estimate_dist_band` (week-11
`Localisatie-Mediaan.py`) -/

/-- One row of `CALIBRATION_STATS`. -/
structure CalRow where
  count : ℕ
  median : ℚ
  p5 : ℚ
  p95 : ℚ

/-- Per-ip calibration statistics, keyed by known distance (insertion
order of the source dict preserved). -/
abbrev CalStats := List (ℚ × CalRow)

/-- The whole `CALIBRATION_STATS` table type, keyed by host ip. -/
abbrev CalTable := List (String × CalStats)

/-- Candidate distances `cal_dists = [d for d in stats_ip.keys() if d > 0.0]` with the
fall-back `if not cal_dists: cal_dists = list(stats_ip.keys())`. -/
def calDistsOf (statsIp : CalStats) : List ℚ :=
  if (statsIp.map Prod.fst).filter (fun d => 0 < d) = [] then statsIp.map Prod.fst
  else (statsIp.map Prod.fst).filter (fun d => 0 < d)

/-- Python `min(ds, key=lambda d: abs(d - t))` keeps the first element and
replaces it only on a strictly smaller key: running-best scan with strict
comparison. -/
noncomputable def argminAbsFold (t : ℝ) (best : ℚ) : List ℚ → ℚ
  | [] => best
  | d :: ds => argminAbsFold t (if |((d : ℝ)) - t| < |((best : ℝ)) - t| then d else best) ds

/-- Model of `min(cal_dists, key=lambda d: abs(d - d_est))`; `none` models the
`ValueError` Python raises on an empty sequence (unreachable for the
shipped `CALIBRATION_STATS`). -/
noncomputable def argminAbs (ds : List ℚ) (t : ℝ) : Option ℚ :=
  match ds with
  | [] => none
  | d :: rest => some (argminAbsFold t d rest)

/-- Model of `estimate_dist_band(host_ip, rssi_med, rssi1m, n)` from week-11
`Localisatie-Mediaan.py`.  Returns `none` when `CALIBRATION_STATS` has no
entry for `host_ip` (the `(None, None, None)` return); the inner `none`
branches model the Python exceptions on an empty stats dict, unreachable
for the shipped table. -/
noncomputable def estimate_dist_band (table : CalTable) (hostIp : String)
    (rssiMed rssi1m n : ℝ) : Option (ℝ × ℝ × ℝ) :=
  (alookup table hostIp).bind (fun statsIp =>
    (argminAbs (calDistsOf statsIp) (rssi_to_dist rssiMed rssi1m n)).bind (fun nearest =>
      (alookup statsIp nearest).bind (fun row =>
        some (rssi_to_dist rssiMed rssi1m n,
          min (rssi_to_dist (rssiMed + |((row.p95 : ℝ)) - ((row.median : ℝ))|) rssi1m n)
            (rssi_to_dist (rssiMed - |((row.median : ℝ)) - ((row.p5 : ℝ))|) rssi1m n),
          max (rssi_to_dist (rssiMed + |((row.p95 : ℝ)) - ((row.median : ℝ))|) rssi1m n)
            (rssi_to_dist (rssiMed - |((row.median : ℝ)) - ((row.p5 : ℝ))|) rssi1m n)))))
/-- Table `CALIBRATION_STATS` from week-11 `Localisatie-Mediaan.py` (values exact,
insertion order preserved). -/
def CALIBRATION_STATS : CalTable := [
  ("172.20.10.2", [
    (0, ⟨592, -33, -34, -32⟩),
    ((1/4 : ℚ), ⟨1017, -38, -39, -37⟩),
    ((1/2 : ℚ), ⟨942, -50, -52, -49⟩),
    ((3/4 : ℚ), ⟨675, -61, -63, -60⟩),
    (1, ⟨634, -58, -59, -56⟩),
    ((3/2 : ℚ), ⟨560, -58, -60, -57⟩),
    (2, ⟨546, -63, -65, -60⟩),
    ((5/2 : ℚ), ⟨557, -63, -65, -61⟩),
    (3, ⟨593, -75, -77, -72⟩),
    ((7/2 : ℚ), ⟨557, -69, -72, -68⟩),
    (4, ⟨576, -67, -69, -64⟩),
    ((9/2 : ℚ), ⟨562, -66, -67, -65⟩),
    (5, ⟨559, -64, -65, -63⟩),
    (6, ⟨547, -65, -67, -64⟩),
    (7, ⟨551, -76, -79, -70⟩),
    (8, ⟨548, -68, -69, -67⟩),
    (9, ⟨565, -73, -75, -70⟩),
    (10, ⟨551, -73, -75, -71⟩)
  ]),
  ("172.20.10.3", [
    (0, ⟨502, -30, -30, -29⟩),
    ((1/4 : ℚ), ⟨512, -43, -44, -42⟩),
    ((1/2 : ℚ), ⟨513, -51, -54, -49⟩),
    ((3/4 : ℚ), ⟨531, -55, -58, -53⟩),
    (1, ⟨533, -58, (-(302/5 : ℚ)), -55⟩),
    ((3/2 : ℚ), ⟨530, -61, -62, -59⟩),
    (2, ⟨509, -66, -68, -63⟩),
    ((5/2 : ℚ), ⟨527, -66, -69, -65⟩),
    (3, ⟨540, -65, -67, -63⟩),
    ((7/2 : ℚ), ⟨523, -70, -72, -69⟩),
    (4, ⟨527, -70, -73, -68⟩),
    ((9/2 : ℚ), ⟨525, -69, -70, -66⟩),
    (5, ⟨527, -71, -74, -69⟩),
    (6, ⟨534, -67, -68, -66⟩),
    (7, ⟨528, -76, -77, -74⟩),
    (8, ⟨528, -70, -72, -69⟩),
    (9, ⟨613, -72, -74, -71⟩),
    (10, ⟨544, -74, -77, -73⟩)
  ]),
  ("172.20.10.4", [
    (0, ⟨511, -28, -29, -27⟩),
    ((1/4 : ℚ), ⟨528, -36, -37, -34⟩),
    ((1/2 : ℚ), ⟨515, -45, -47, -44⟩),
    ((3/4 : ℚ), ⟨529, -49, -50, -49⟩),
    (1, ⟨532, -53, -54, -52⟩),
    ((3/2 : ℚ), ⟨525, -57, -59, -56⟩),
    (2, ⟨528, -60, -62, -59⟩),
    ((5/2 : ℚ), ⟨529, -62, -63, -60⟩),
    (3, ⟨531, -59, -60, -57⟩),
    ((7/2 : ℚ), ⟨526, -65, -67, -61⟩),
    (4, ⟨530, -67, -69, -63⟩),
    ((9/2 : ℚ), ⟨528, -69, -71, -66⟩),
    (5, ⟨527, -68, -69, -63⟩),
    (6, ⟨526, -67, -68, -64⟩),
    (7, ⟨533, -68, -70, -67⟩),
    (8, ⟨532, -72, -73, -69⟩),
    (9, ⟨526, -73, -75, -72⟩),
    (10, ⟨532, -73, -75, -71⟩)
  ])
]

/-- A one-row calibration table with integer-valued entries, used to
instantiate the distance-band theorems on concrete inputs. -/
def sampleCalTable : CalTable := [(("X" : String), [((1 : ℚ), ⟨100, -58, -59, -56⟩)])]

/-! Section: theorems -/

/-- C1: for the 3 collinear anchors (0,0),(1,0),(2,0), whatever the
reported signal strengths (hence whatever the positive distances
`rssi_to_distance` derives from them), `trilaterate_3anchors` does NOT
fail with a distinct `SingularSystem` error: it silently returns the
coordinate `(0.0, 0.0)` through its near-zero-determinant branch.  This
contradicts the claimed error contract (the function has no error outcome
at all). -/
theorem C1_trilaterate_3anchors_collinear_returns_origin (r1 r2 r3 : ℝ) :
    Server.trilaterate_3anchors (0, 0) (1, 0) (2, 0) r1 r2 r3 = (0, 0) := by
  unfold Server.trilaterate_3anchors
  norm_num

/-- C7: given the 3 anchors (0,0),(10,0),(5,8) and the exact Euclidean
distances from each anchor to the true point (3,4) — namely 5, √65 and
√20 — `trilaterate` recovers (3,4) exactly (hence in particular within
1e-6). -/
theorem C7_trilaterate_exact_recovery :
    trilaterate (0, 0) (10, 0) (5, 8) 5 (Real.sqrt 65) (Real.sqrt 20) = (3, 4) := by
  have h65 : Real.sqrt 65 ^ 2 = 65 := Real.sq_sqrt (by norm_num)
  have h20 : Real.sqrt 20 ^ 2 = 20 := Real.sq_sqrt (by norm_num)
  unfold trilaterate lstsq2x2
  norm_num [h65, h20]

/-- C8: the inverse model `rssi_to_dist` applied to the forward model
`rssiFromDistance` returns the original distance exactly, for every
`d > 0`, every `rssi1m` and every `n > 0` (exact identity in the real
model, hence within any relative tolerance). -/
theorem C8_roundtrip_distance_rssi (d rssi1m n : ℝ) (hd : 0 < d) (hn : 0 < n) :
    rssi_to_dist (rssiFromDistance d rssi1m n) rssi1m n = d := by
  unfold rssi_to_dist rssiFromDistance log10
  have hn0 : n ≠ 0 := ne_of_gt hn
  have harg : (rssi1m - (rssi1m - 10 * n * Real.logb 10 d)) / (10 * n)
      = Real.logb 10 d := by
    field_simp
  rw [harg, Real.rpow_logb (by norm_num) (by norm_num) hd]

/-- C8 witness: the round trip at `d = 2`, `rssi1m = -55`, `n = 11/5`. -/
theorem C8_roundtrip_distance_rssi_witness :
    (0 : ℝ) < 2 ∧ (0 : ℝ) < 11 / 5 ∧
      rssi_to_dist (rssiFromDistance 2 (-55) (11 / 5)) (-55) (11 / 5) = 2 :=
  ⟨by norm_num, by norm_num,
    C8_roundtrip_distance_rssi 2 (-55) (11 / 5) (by norm_num) (by norm_num)⟩

/-- A rolling deque never exceeds its capacity and keeps exactly the last
`cap` pushed samples: folding `dequePush` over any sample list from a
buffer within capacity yields the suffix of the combined stream that fits. -/
theorem dequePush_foldl (cap : ℕ) :
    ∀ (xs buf : List ℚ), buf.length ≤ cap →
      List.foldl (dequePush cap) buf xs
        = (buf ++ xs).drop (buf.length + xs.length - cap) := by
  intro xs
  induction xs with
  | nil =>
    intro buf h
    simp [Nat.sub_eq_zero_of_le h]
  | cons x xs ih =>
    intro buf h
    rw [List.foldl_cons]
    rcases Nat.lt_or_ge buf.length cap with hlt | hge
    · have hc : ¬ cap < (buf ++ [x]).length := by
        rw [List.length_append, List.length_singleton]
        omega
      have hpush : dequePush cap buf x = buf ++ [x] := by
        unfold dequePush
        rw [if_neg hc]
      rw [hpush, ih (buf ++ [x])
        (by rw [List.length_append, List.length_singleton]; omega)]
      have h1 : (buf ++ [x]) ++ xs = buf ++ x :: xs := by simp
      rw [h1]
      congr 1
      rw [List.length_append, List.length_singleton, List.length_cons]
      omega
    · have hbe : buf.length = cap := le_antisymm h hge
      have hc : cap < (buf ++ [x]).length := by
        rw [List.length_append, List.length_singleton]
        omega
      have hpush : dequePush cap buf x = (buf ++ [x]).drop 1 := by
        unfold dequePush
        rw [if_pos hc, List.length_append, List.length_singleton, hbe]
        congr 1
        omega
      have hlen : ((buf ++ [x]).drop 1).length ≤ cap := by
        rw [List.length_drop, List.length_append, List.length_singleton]
        omega
      rw [hpush, ih _ hlen]
      have hsplit : (buf ++ [x]).drop 1 ++ xs = ((buf ++ [x]) ++ xs).drop 1 :=
        (List.drop_append_of_le_length
          (by rw [List.length_append, List.length_singleton]; omega)).symm
      rw [hsplit, List.drop_drop]
      have hbig : (buf ++ [x]) ++ xs = buf ++ x :: xs := by simp
      rw [hbig]
      congr 1
      rw [List.length_drop, List.length_append, List.length_singleton,
        List.length_cons]
      omega

set_option maxRecDepth 100000 in
/-- C3 counterexample: in the week-11 localization listener (capacity
`CHUNK_N = 100`), pushing 105 samples does NOT leave the buffer holding
the 100 most recently pushed samples: the listener computes the chunk
median and empties the buffer the moment it reaches capacity, so only the
last 5 samples remain. -/
theorem C3_counterexample_chunk_listener_empties_at_capacity :
    (List.foldl (chunkPush CHUNK_N) ⟨[], none⟩
        ((List.range 105).map (fun i => ((i : ℚ))))).buf
      ≠ ((List.range 105).map (fun i => ((i : ℚ)))).drop 5 := by
  decide

set_option maxRecDepth 100000 in
/-- C3 (amended): a plain rolling deque of capacity `cap` (the week-4
moving-average localization buffer, `rssi_buf[key].append`) retains, after
pushing `cap + 5` samples, exactly the `cap` most recent samples in FIFO
order with the oldest evicted first; the week-11 chunked-median
localization listener instead computes a chunk median (recorded in
`chunk_med`) and clears the buffer each time it reaches `CHUNK_N = 100`,
so 105 pushes leave only the 5 most recent samples. -/
theorem C3_rolling_buffer_amended (cap : ℕ) (xs : List ℚ) (hcap : 0 < cap)
    (hlen : xs.length = cap + 5) :
    List.foldl (dequePush cap) [] xs = xs.drop 5
    ∧ (List.foldl (chunkPush CHUNK_N) ⟨[], none⟩
          ((List.range 105).map (fun i => ((i : ℚ))))).buf
        = ((List.range 105).map (fun i => ((i : ℚ)))).drop 100
    ∧ (List.foldl (chunkPush CHUNK_N) ⟨[], none⟩
          ((List.range 105).map (fun i => ((i : ℚ))))).chunkMed.isSome = true := by
  refine ⟨?_, by decide, by decide⟩
  rw [dequePush_foldl cap xs [] (by simp)]
  simp only [List.nil_append, List.length_nil, Nat.zero_add]
  congr 1
  omega

/-- C3 witness: the rolling part at capacity 3 with 8 pushed samples. -/
theorem C3_rolling_buffer_amended_witness :
    ((0 : ℕ) < 3 ∧ ([(1 : ℚ), 2, 3, 4, 5, 6, 7, 8]).length = 3 + 5)
    ∧ List.foldl (dequePush 3) [] [(1 : ℚ), 2, 3, 4, 5, 6, 7, 8]
        = ([(1 : ℚ), 2, 3, 4, 5, 6, 7, 8]).drop 5 :=
  ⟨⟨by decide, by decide⟩,
    (C3_rolling_buffer_amended 3 [(1 : ℚ), 2, 3, 4, 5, 6, 7, 8]
      (by decide) (by decide)).1⟩

/-- Once `fill_on` is off, the freeze listener ignores every packet. -/
theorem freezePush_off (W : ℕ) :
    ∀ (xs : List ℚ) (s : FreezeState), s.fillOn = false →
      List.foldl (freezePush W) s xs = s := by
  intro xs
  induction xs with
  | nil => intro s _; rfl
  | cons x xs ih =>
    intro s hs
    rw [List.foldl_cons]
    have hstep : freezePush W s x = s := by
      unfold freezePush
      rw [if_neg]
      simp [hs]
    rw [hstep, ih s hs]

/-- While filling is active and the stream exactly fills the remaining
capacity, the freeze listener appends every sample and switches
`fill_on` off on the last one. -/
theorem freezePush_fill (W : ℕ) :
    ∀ (xs : List ℚ) (s : FreezeState), s.fillOn = true →
      s.buf.length + xs.length = W → xs ≠ [] →
      List.foldl (freezePush W) s xs = ⟨s.buf ++ xs, false⟩ := by
  intro xs
  induction xs with
  | nil => intro s _ _ hne; exact absurd rfl hne
  | cons x xs ih =>
    intro s hfill hsum _
    have hlt : s.buf.length < W := by
      rw [List.length_cons] at hsum
      omega
    have hstep : freezePush W s x
        = ⟨s.buf ++ [x], decide (s.buf.length + 1 < W)⟩ := by
      unfold freezePush
      rw [if_pos ⟨hfill, hlt⟩]
    rw [List.foldl_cons, hstep]
    cases xs with
    | nil =>
      have hfull : ¬ (s.buf.length + 1 < W) := by
        rw [List.length_cons, List.length_nil] at hsum
        omega
      simp only [List.foldl_nil, decide_eq_false hfull]
    | cons y ys =>
      have hroom : s.buf.length + 1 < W := by
        rw [List.length_cons, List.length_cons] at hsum
        omega
      rw [decide_eq_true hroom]
      have harg : (FreezeState.mk (s.buf ++ [x]) true).buf.length
          + (y :: ys).length = W := by
        show (s.buf ++ [x]).length + (y :: ys).length = W
        rw [List.length_append, List.length_singleton]
        rw [List.length_cons, List.length_cons] at hsum
        rw [List.length_cons]
        omega
      rw [ih ⟨s.buf ++ [x], true⟩ rfl harg (by simp)]
      simp

/-- With filling active, the tool listener is exactly the rolling deque:
`fill_on` stays on and every sample is appended. -/
theorem toolPush_foldl (W : ℕ) :
    ∀ (xs : List ℚ) (b : List ℚ),
      List.foldl (toolPush W) ⟨b, true⟩ xs = ⟨List.foldl (dequePush W) b xs, true⟩ := by
  intro xs
  induction xs with
  | nil => intro b; rfl
  | cons x xs ih =>
    intro b
    rw [List.foldl_cons, List.foldl_cons]
    have hstep : toolPush W ⟨b, true⟩ x = ⟨dequePush W b x, true⟩ := by
      unfold toolPush
      rw [if_pos rfl]
    rw [hstep, ih (dequePush W b x)]

set_option maxRecDepth 4000 in
/-- C4 counterexample: in the `Werken met een Mediaan` calibration tool
(capacity `MED_WINDOW = 250`), pushing 255 samples with filling active
leaves the buffer holding the LAST 250 samples (the deque rolls), not the
first 250, and filling is never switched off. -/
theorem C4_counterexample_tool_buffer_rolls :
    (List.foldl (toolPush MED_WINDOW_TOOL) ⟨[], true⟩
        ((List.range 255).map (fun i => ((i : ℚ))))).fillOn = true
    ∧ (List.foldl (toolPush MED_WINDOW_TOOL) ⟨[], true⟩
          ((List.range 255).map (fun i => ((i : ℚ))))).buf
        ≠ ((List.range 255).map (fun i => ((i : ℚ)))).take 250 := by
  rw [toolPush_foldl MED_WINDOW_TOOL ((List.range 255).map (fun i => ((i : ℚ)))) []]
  refine ⟨rfl, ?_⟩
  rw [dequePush_foldl MED_WINDOW_TOOL _ [] (by simp)]
  simp only [List.nil_append, List.length_nil, Nat.zero_add, List.length_map,
    List.length_range]
  decide

/-- C4 (amended): in the week-11 / Indienen calibration flow ("freeze"
semantics), with filling active, pushing `W + 5` samples into a buffer of
capacity `W` retains exactly the FIRST `W` pushed samples, marks the
buffer full (`fill_on` off), and every further push is a no-op until the
operator clears and restarts the buffer (the `Start buffer` action, which
clears and re-enables filling, after which pushes are accepted again);
in the earlier `Werken met een Mediaan` calibration tool the buffer
instead rolls and filling never stops automatically. -/
theorem C4_freeze_buffer_amended (W : ℕ) (xs : List ℚ) (hW : 0 < W)
    (hlen : xs.length = W + 5) :
    (List.foldl (freezePush W) ⟨[], true⟩ xs).buf = xs.take W
    ∧ (List.foldl (freezePush W) ⟨[], true⟩ xs).fillOn = false
    ∧ (∀ y, freezePush W (List.foldl (freezePush W) ⟨[], true⟩ xs) y
        = List.foldl (freezePush W) ⟨[], true⟩ xs)
    ∧ (∀ y, (freezePush W (startBuffer (List.foldl (freezePush W) ⟨[], true⟩ xs)) y).buf
        = [y]) := by
  have hfold : List.foldl (freezePush W) ⟨[], true⟩ xs = ⟨xs.take W, false⟩ := by
    conv_lhs => rw [← List.take_append_drop W xs]
    rw [List.foldl_append]
    rw [freezePush_fill W (xs.take W) ⟨[], true⟩ rfl
      (by rw [List.length_nil, List.length_take, hlen]; omega)
      (List.ne_nil_of_length_pos (by rw [List.length_take, hlen]; omega))]
    rw [freezePush_off W (xs.drop W) ⟨([] : List ℚ) ++ xs.take W, false⟩ rfl]
    rw [List.nil_append]
  refine ⟨by rw [hfold], by rw [hfold], ?_, ?_⟩
  · intro y
    rw [hfold]
    unfold freezePush
    rw [if_neg]
    simp
  · intro y
    rw [hfold]
    unfold startBuffer freezePush
    simp [hW]

/-- C4 witness: freeze behaviour at capacity 3 with 8 pushed samples. -/
theorem C4_freeze_buffer_amended_witness :
    ((0 : ℕ) < 3 ∧ ([(1 : ℚ), 2, 3, 4, 5, 6, 7, 8]).length = 3 + 5)
    ∧ ((List.foldl (freezePush 3) ⟨[], true⟩ [(1 : ℚ), 2, 3, 4, 5, 6, 7, 8]).buf
          = ([(1 : ℚ), 2, 3, 4, 5, 6, 7, 8]).take 3
        ∧ (List.foldl (freezePush 3) ⟨[], true⟩ [(1 : ℚ), 2, 3, 4, 5, 6, 7, 8]).fillOn
          = false
        ∧ (∀ y, freezePush 3 (List.foldl (freezePush 3) ⟨[], true⟩
              [(1 : ℚ), 2, 3, 4, 5, 6, 7, 8]) y
            = List.foldl (freezePush 3) ⟨[], true⟩ [(1 : ℚ), 2, 3, 4, 5, 6, 7, 8])
        ∧ (∀ y, (freezePush 3 (startBuffer (List.foldl (freezePush 3) ⟨[], true⟩
              [(1 : ℚ), 2, 3, 4, 5, 6, 7, 8])) y).buf = [y])) :=
  ⟨⟨by decide, by decide⟩,
    C4_freeze_buffer_amended 3 [(1 : ℚ), 2, 3, 4, 5, 6, 7, 8]
      (by decide) (by decide)⟩

/-- Deleting entries from a dict cannot create a binding. -/
theorem alookup_filter_none {β : Type} (p : String × β → Bool) :
    ∀ (m : List (String × β)) (ip : String), alookup m ip = none →
      alookup (m.filter p) ip = none := by
  intro m
  induction m with
  | nil => intro ip _; rfl
  | cons kv rest ih =>
    intro ip h
    obtain ⟨k, v⟩ := kv
    have hk : ¬ k = ip := by
      intro he
      rw [alookup, if_pos he] at h
      exact Option.noConfusion h
    have hrest : alookup rest ip = none := by
      rw [alookup, if_neg hk] at h
      exact h
    rw [List.filter_cons]
    by_cases hp : p (k, v) = true
    · rw [if_pos hp, alookup, if_neg hk]
      exact ih ip hrest
    · rw [if_neg hp]
      exact ih ip hrest

/-- Inserting a fresh key at the end of a dict makes it found. -/
theorem alookup_append_self {β : Type} :
    ∀ (m : List (String × β)) (ip : String) (v : β), alookup m ip = none →
      alookup (m ++ [(ip, v)]) ip = some v := by
  intro m
  induction m with
  | nil => intro ip v _; simp [alookup]
  | cons kv rest ih =>
    intro ip v h
    obtain ⟨k, w⟩ := kv
    have hk : ¬ k = ip := by
      intro he
      rw [alookup, if_pos he] at h
      exact Option.noConfusion h
    have hrest : alookup rest ip = none := by
      rw [alookup, if_neg hk] at h
      exact h
    rw [List.cons_append, alookup, if_neg hk]
    exact ih ip v hrest

/-- C2 counterexample: in the week-11 localization GUI, bind three
identifiers to A/B/C, let the operator unbind A (empty input), then let a
packet from a new 4th identifier arrive: the listener leaves the state
unchanged and the 4th identifier stays unbound — observation does NOT
bind it to the freed slot, refuting the claim at this concrete input. -/
theorem C2_counterexample_observation10_does_not_bind_freed_slot :
    locListenerStep
        ⟨on_submit_ip
            [(("10.0.0.1" : String), ("A" : String)), ("10.0.0.2", "B"), ("10.0.0.3", "C")]
            ("A") (""), []⟩
        ("10.0.0.4") 0
      = ⟨on_submit_ip
            [(("10.0.0.1" : String), ("A" : String)), ("10.0.0.2", "B"), ("10.0.0.3", "C")]
            ("A") (""), []⟩
    ∧ alookup
        (locListenerStep
          ⟨on_submit_ip
              [(("10.0.0.1" : String), ("A" : String)), ("10.0.0.2", "B"), ("10.0.0.3", "C")]
              ("A") (""), []⟩
          ("10.0.0.4") 0).ipToKey ("10.0.0.4") = none := by
  decide

/-- Looking past a prefix of a dict in which a key is absent. -/
theorem alookup_append_none {β : Type} :
    ∀ (l1 l2 : List (String × β)) (ip : String), alookup l1 ip = none →
      alookup (l1 ++ l2) ip = alookup l2 ip := by
  intro l1
  induction l1 with
  | nil => intro l2 ip _; rfl
  | cons kv rest ih =>
    intro l2 ip h
    obtain ⟨k, v⟩ := kv
    have hk : ¬ k = ip := by
      intro he
      rw [alookup, if_pos he] at h
      exact Option.noConfusion h
    have hrest : alookup rest ip = none := by
      rw [alookup, if_neg hk] at h
      exact h
    rw [List.cons_append, alookup, if_neg hk]
    exact ih l2 ip hrest

/-- A singleton dict misses every other key. -/
theorem alookup_singleton_ne {β : Type} (a ip : String) (v : β) (hne : ¬ a = ip) :
    alookup [(a, v)] ip = none := by
  rw [alookup, if_neg hne]
  rfl

/-- `calObserve` on an unknown identifier with a free slot binds it to the
head of `unused_keys`. -/
theorem calObserve_free (s : AssignState) (ip k : String) (rest : List String)
    (h : alookup s.ipToKey ip = none) (hu : s.unusedKeys = k :: rest) :
    calObserve s ip = ⟨s.ipToKey ++ [(ip, k)], rest⟩ := by
  unfold calObserve
  rw [h, hu]
  rfl

/-- `calObserve` on an unknown identifier with no free slot is a no-op. -/
theorem calObserve_noslot (s : AssignState) (ip : String)
    (h : alookup s.ipToKey ip = none) (hu : s.unusedKeys = []) :
    calObserve s ip = s := by
  unfold calObserve
  rw [h, hu]
  rfl

/-- The week-11 localization listener ignores packets from unbound
identifiers entirely: no buffer is touched and no binding is created. -/
theorem locListenerStep_unknown (s : LocState) (ip : String) (r : ℚ)
    (h : alookup s.ipToKey ip = none) : locListenerStep s ip r = s := by
  unfold locListenerStep
  rw [h]

/-- Empty operator input unbinds a slot and cannot create a binding. -/
theorem on_submit_ip_empty_none (m : List (String × String)) (k ip : String)
    (h : alookup m ip = none) : alookup (on_submit_ip m k ("")) ip = none := by
  unfold on_submit_ip
  rw [if_pos rfl]
  exact alookup_filter_none _ m ip h

/-- Explicit operator submission of a fresh identifier binds it. -/
theorem on_submit_ip_binds (m : List (String × String)) (k ip : String)
    (hne : ¬ ip = ("")) (h : alookup m ip = none) :
    alookup (on_submit_ip m k ip) ip = some k := by
  unfold on_submit_ip
  rw [if_neg hne]
  exact alookup_append_self _ ip k (alookup_filter_none _ m ip h)

/-- C2 (amended): with 3 slots all bound, the first observation of a 4th
distinct identifier leaves it unbound (calibration flow shown: the
unused-keys list is exhausted).  In the localization flow an operator's
empty-input unbind frees the slot, but a mere observation of a new
identifier never binds anything there (the listener ignores unknown
senders, leaving the whole state unchanged); the freed slot becomes
available only to an explicit operator reassignment, which does bind the
new identifier to it. -/
theorem C2_anchor_assignment_amended :
    (∀ ip1 ip2 ip3 ip4 : String,
        ip1 ≠ ip2 → ip1 ≠ ip3 → ip1 ≠ ip4 → ip2 ≠ ip3 → ip2 ≠ ip4 → ip3 ≠ ip4 →
        alookup (calObserve (calObserve (calObserve (calObserve assignInit ip1)
            ip2) ip3) ip4).ipToKey ip4 = none)
    ∧ (∀ (m : List (String × String)) (bufs : List (String × ChunkState))
          (k ip : String) (r : ℚ), alookup m ip = none → ip ≠ ("") →
        alookup (on_submit_ip m k ("")) ip = none
        ∧ locListenerStep ⟨on_submit_ip m k (""), bufs⟩ ip r
            = ⟨on_submit_ip m k (""), bufs⟩
        ∧ alookup (on_submit_ip (on_submit_ip m k ("")) k ip) ip = some k) := by
  constructor
  · intro ip1 ip2 ip3 ip4 h12 h13 h14 h23 h24 h34
    have s1 : calObserve assignInit ip1 = ⟨[] ++ [(ip1, ("A" : String))], ["B", "C"]⟩ :=
      calObserve_free assignInit ip1 ("A") ["B", "C"] rfl rfl
    have l2 : alookup ([] ++ [(ip1, ("A" : String))]) ip2 = none := by
      rw [List.nil_append]
      exact alookup_singleton_ne ip1 ip2 _ h12
    have s2 : calObserve ⟨[] ++ [(ip1, ("A" : String))], ["B", "C"]⟩ ip2
        = ⟨([] ++ [(ip1, ("A" : String))]) ++ [(ip2, "B")], ["C"]⟩ :=
      calObserve_free _ ip2 ("B") ["C"] l2 rfl
    have l3 : alookup (([] ++ [(ip1, ("A" : String))]) ++ [(ip2, "B")]) ip3 = none := by
      rw [alookup_append_none _ _ ip3
        (by rw [List.nil_append]; exact alookup_singleton_ne ip1 ip3 _ h13)]
      exact alookup_singleton_ne ip2 ip3 _ h23
    have s3 : calObserve ⟨([] ++ [(ip1, ("A" : String))]) ++ [(ip2, "B")], ["C"]⟩ ip3
        = ⟨(([] ++ [(ip1, ("A" : String))]) ++ [(ip2, "B")]) ++ [(ip3, "C")], []⟩ :=
      calObserve_free _ ip3 ("C") [] l3 rfl
    have l4a : alookup ([] ++ [(ip1, ("A" : String))]) ip4 = none := by
      rw [List.nil_append]
      exact alookup_singleton_ne ip1 ip4 _ h14
    have l4b : alookup (([] ++ [(ip1, ("A" : String))]) ++ [(ip2, "B")]) ip4 = none := by
      rw [alookup_append_none _ _ ip4 l4a]
      exact alookup_singleton_ne ip2 ip4 _ h24
    have l4 : alookup ((([] ++ [(ip1, ("A" : String))]) ++ [(ip2, "B")]) ++ [(ip3, "C")])
        ip4 = none := by
      rw [alookup_append_none _ _ ip4 l4b]
      exact alookup_singleton_ne ip3 ip4 _ h34
    have s4 : calObserve
        ⟨(([] ++ [(ip1, ("A" : String))]) ++ [(ip2, "B")]) ++ [(ip3, "C")], []⟩ ip4
        = ⟨(([] ++ [(ip1, ("A" : String))]) ++ [(ip2, "B")]) ++ [(ip3, "C")], []⟩ :=
      calObserve_noslot _ ip4 l4 rfl
    rw [s1, s2, s3, s4]
    exact l4
  · intro m bufs k ip r hip hne
    have f1 : alookup (on_submit_ip m k ("")) ip = none :=
      on_submit_ip_empty_none m k ip hip
    exact ⟨f1, locListenerStep_unknown ⟨on_submit_ip m k (""), bufs⟩ ip r f1,
      on_submit_ip_binds (on_submit_ip m k ("")) k ip hne f1⟩

/-- C2 witness: four concrete identifiers for the calibration flow, and a
concrete bound map for the localization unbind/observe/rebind sequence. -/
theorem C2_anchor_assignment_amended_witness :
    alookup (calObserve (calObserve (calObserve (calObserve assignInit
        ("10.0.0.1")) ("10.0.0.2")) ("10.0.0.3")) ("10.0.0.4")).ipToKey
        ("10.0.0.4") = none
    ∧ (alookup (on_submit_ip [(("10.0.0.1" : String), ("A" : String))] ("A") (""))
          ("10.0.0.4") = none
      ∧ locListenerStep
          ⟨on_submit_ip [(("10.0.0.1" : String), ("A" : String))] ("A") (""), []⟩
          ("10.0.0.4") 0
        = ⟨on_submit_ip [(("10.0.0.1" : String), ("A" : String))] ("A") (""), []⟩
      ∧ alookup (on_submit_ip
          (on_submit_ip [(("10.0.0.1" : String), ("A" : String))] ("A") (""))
          ("A") ("10.0.0.4")) ("10.0.0.4") = some ("A")) :=
  ⟨C2_anchor_assignment_amended.1 ("10.0.0.1") ("10.0.0.2") ("10.0.0.3") ("10.0.0.4")
      (by decide) (by decide) (by decide) (by decide) (by decide) (by decide),
    C2_anchor_assignment_amended.2 [(("10.0.0.1" : String), ("A" : String))] []
      ("A") ("10.0.0.4") 0 (by decide) (by decide)⟩

/-- Sum of an affine image. -/
theorem sum_map_affine (a0 b0 : ℝ) :
    ∀ (l : List ℝ), (l.map (fun x => a0 + b0 * x)).sum
      = (l.length : ℝ) * a0 + b0 * l.sum := by
  intro l
  induction l with
  | nil => simp
  | cons x l ih =>
    rw [List.map_cons, List.sum_cons, List.length_cons, ih, List.sum_cons]
    push_cast
    ring

/-- Sum of `x * (a0 + b0 x)`. -/
theorem sum_map_mul_affine (a0 b0 : ℝ) :
    ∀ (l : List ℝ), (l.map (fun x => x * (a0 + b0 * x))).sum
      = a0 * l.sum + b0 * sumXX l := by
  intro l
  induction l with
  | nil => simp [sumXX]
  | cons x l ih =>
    rw [List.map_cons, List.sum_cons, ih, List.sum_cons]
    unfold sumXX
    rw [List.map_cons, List.sum_cons]
    ring

/-- Expansion of a sum of squared deviations from a constant. -/
theorem sum_sq_dev (a : ℝ) :
    ∀ (l : List ℝ), (l.map (fun x => (a - x) ^ 2)).sum
      = (l.length : ℝ) * a ^ 2 - 2 * a * l.sum + sumXX l := by
  intro l
  induction l with
  | nil => simp [sumXX]
  | cons x l ih =>
    rw [List.map_cons, List.sum_cons, ih, List.length_cons, List.sum_cons]
    unfold sumXX
    rw [List.map_cons, List.sum_cons]
    push_cast
    ring

/-- Cons step for the normal-equation determinant:
`detXX (a :: l) = detXX l + Σ_{x∈l} (a - x)²`. -/
theorem detXX_cons (a : ℝ) (l : List ℝ) :
    detXX (a :: l) = detXX l + (l.map (fun x => (a - x) ^ 2)).sum := by
  rw [sum_sq_dev a l]
  unfold detXX sumXX
  rw [List.map_cons, List.sum_cons, List.length_cons, List.sum_cons]
  push_cast
  ring

/-- The normal-equation determinant is non-negative (Cauchy-Schwarz). -/
theorem detXX_nonneg : ∀ (l : List ℝ), 0 ≤ detXX l := by
  intro l
  induction l with
  | nil => simp [detXX, sumXX]
  | cons a l ih =>
    rw [detXX_cons]
    have hsq : 0 ≤ (l.map (fun x => (a - x) ^ 2)).sum :=
      List.sum_nonneg (fun y hy => by
        obtain ⟨x, _, rfl⟩ := List.mem_map.mp hy
        positivity)
    linarith

/-- With two distinct sample values the normal-equation determinant is
strictly positive. -/
theorem detXX_pos : ∀ (l : List ℝ) (x y : ℝ), x ∈ l → y ∈ l → x ≠ y →
    0 < detXX l := by
  intro l
  induction l with
  | nil => intro x y hx _ _; exact absurd hx (List.not_mem_nil x)
  | cons a l ih =>
    intro x y hx hy hxy
    rw [detXX_cons]
    have hsq : 0 ≤ (l.map (fun t => (a - t) ^ 2)).sum :=
      List.sum_nonneg (fun z hz => by
        obtain ⟨t, _, rfl⟩ := List.mem_map.mp hz
        positivity)
    rcases List.mem_cons.mp hx with rfl | hx'
    · rcases List.mem_cons.mp hy with rfl | hy'
      · exact absurd rfl hxy
      · have hterm : (x - y) ^ 2 ≤ (l.map (fun t => (x - t) ^ 2)).sum :=
          List.single_le_sum (fun z hz => by
              obtain ⟨t, _, rfl⟩ := List.mem_map.mp hz
              positivity) _
            (List.mem_map_of_mem _ hy')
        have hpos : 0 < (x - y) ^ 2 := by
          have hne : x - y ≠ 0 := sub_ne_zero.mpr hxy
          positivity
        have h0 := detXX_nonneg l
        linarith
    · rcases List.mem_cons.mp hy with rfl | hy'
      · have hterm : (y - x) ^ 2 ≤ (l.map (fun t => (y - t) ^ 2)).sum :=
          List.single_le_sum (fun z hz => by
              obtain ⟨t, _, rfl⟩ := List.mem_map.mp hz
              positivity) _
            (List.mem_map_of_mem _ hx')
        have hpos : 0 < (y - x) ^ 2 := by
          have hne : y - x ≠ 0 := sub_ne_zero.mpr (Ne.symm hxy)
          positivity
        have h0 := detXX_nonneg l
        linarith
      · have h0 := ih x y hx' hy' hxy
        linarith

/-- Zipping a list with its own image. -/
theorem zip_map_self {β : Type} (g : ℝ → β) :
    ∀ (l : List ℝ), l.zip (l.map g) = l.map (fun t => (t, g t)) := by
  intro l
  induction l with
  | nil => rfl
  | cons x l ih => rw [List.map_cons, List.zip_cons_cons, ih, List.map_cons]

/-- On noiseless affine data the least-squares line is exact. -/
theorem olsAB_exact (a0 b0 : ℝ) (l : List ℝ) (x y : ℝ) (hx : x ∈ l) (hy : y ∈ l)
    (hxy : x ≠ y) : olsAB l (l.map (fun t => a0 + b0 * t)) = (a0, b0) := by
  have hD := detXX_pos l x y hx hy hxy
  have hDne : detXX l ≠ 0 := ne_of_gt hD
  have hsy : (l.map (fun t => a0 + b0 * t)).sum = (l.length : ℝ) * a0 + b0 * l.sum :=
    sum_map_affine a0 b0 l
  have hsxy : sumXY l (l.map (fun t => a0 + b0 * t)) = a0 * l.sum + b0 * sumXX l := by
    unfold sumXY
    rw [zip_map_self, List.map_map]
    have hcomp : ((fun p : ℝ × ℝ => p.1 * p.2) ∘ fun t => (t, a0 + b0 * t))
        = fun t => t * (a0 + b0 * t) := rfl
    rw [hcomp]
    exact sum_map_mul_affine a0 b0 l
  unfold olsAB
  rw [if_neg hDne, hsy, hsxy]
  have hnum1 : sumXX l * ((l.length : ℝ) * a0 + b0 * l.sum)
      - l.sum * (a0 * l.sum + b0 * sumXX l) = a0 * detXX l := by
    unfold detXX
    ring
  have hnum2 : (l.length : ℝ) * (a0 * l.sum + b0 * sumXX l)
      - l.sum * ((l.length : ℝ) * a0 + b0 * l.sum) = b0 * detXX l := by
    unfold detXX
    ring
  rw [hnum1, hnum2, mul_div_assoc, div_self hDne, mul_one, mul_div_assoc,
    div_self hDne, mul_one]

/-- On noiseless affine data the residual sum of squares vanishes. -/
theorem ssRes_exact (a0 b0 : ℝ) (l : List ℝ) :
    ssRes l (l.map (fun t => a0 + b0 * t)) a0 b0 = 0 := by
  unfold ssRes
  rw [zip_map_self, List.map_map]
  apply List.sum_eq_zero
  intro z hz
  obtain ⟨t, _, rfl⟩ := List.mem_map.mp hz
  simp

/-- On noiseless affine data `r2 = 1` (through either branch of the
`ss_tot > 0` test). -/
theorem r2Of_exact (a0 b0 : ℝ) (l : List ℝ) :
    r2Of l (l.map (fun t => a0 + b0 * t)) a0 b0 = 1 := by
  unfold r2Of
  rw [ssRes_exact]
  by_cases h : 0 < ssTot (l.map (fun t => a0 + b0 * t))
  · rw [if_pos h]
    rw [zero_div, sub_zero]
  · rw [if_neg h]

/-- Sum of a constant list. -/
theorem sum_const_mem (c : ℝ) :
    ∀ (l : List ℝ), (∀ y ∈ l, y = c) → l.sum = (l.length : ℝ) * c := by
  intro l
  induction l with
  | nil => intro _; simp
  | cons y l ih =>
    intro h
    rw [List.sum_cons, List.length_cons,
      ih (fun z hz => h z (List.mem_cons_of_mem y hz)), h y (List.mem_cons_self y l)]
    push_cast
    ring

/-- Vanishing of `ss_tot` when all observed values are identical. -/
theorem ssTot_const (c : ℝ) (ys : List ℝ) (hne : ys ≠ []) (hy : ∀ y ∈ ys, y = c) :
    ssTot ys = 0 := by
  unfold ssTot
  have hsum : ys.sum = (ys.length : ℝ) * c := sum_const_mem c ys hy
  have hn : (ys.length : ℝ) ≠ 0 := by
    have h0 : ys.length ≠ 0 := fun h0 => hne (List.length_eq_zero.mp h0)
    exact_mod_cast h0
  apply List.sum_eq_zero
  intro z hz
  obtain ⟨y, hym, rfl⟩ := List.mem_map.mp hz
  rw [hy y hym, hsum, mul_comm, mul_div_assoc, div_self hn, mul_one, sub_self]
  exact zero_pow (by norm_num)

/-- C5: with fewer than 2 positive-distance pairs remaining after the
`d > 0` mask, `fit_log_model` fails (returns no fit parameters),
regardless of how many non-positive-distance pairs are present; and the
fit only ever depends on the positive-distance pairs (non-positive pairs
are excluded). -/
theorem C5_fit_insufficient_data (pts : List (ℝ × ℝ)) :
    ((pts.filter (fun p => 0 < p.1)).length < 2 → fit_log_model pts = none)
    ∧ fit_log_model pts = fit_log_model (pts.filter (fun p => 0 < p.1)) := by
  have hidem : (pts.filter (fun p => 0 < p.1)).filter (fun p => 0 < p.1)
      = pts.filter (fun p => 0 < p.1) := by
    rw [List.filter_filter]
    congr 1
    funext a
    rw [Bool.and_self]
  constructor
  · intro h
    unfold fit_log_model
    rw [if_pos h]
  · unfold fit_log_model
    rw [hidem]

/-- C5 witness: three pairs of which only one has positive distance. -/
theorem C5_fit_insufficient_data_witness :
    ((([((-1 : ℝ), (-50 : ℝ)), (0, -60), (2, -55)]).filter
        (fun p => 0 < p.1)).length < 2)
    ∧ fit_log_model [((-1 : ℝ), (-50 : ℝ)), (0, -60), (2, -55)] = none := by
  have hf : (([((-1 : ℝ), (-50 : ℝ)), (0, -60), (2, -55)]).filter
      (fun p => 0 < p.1)) = [((2 : ℝ), (-55 : ℝ))] := by
    rw [List.filter_cons, List.filter_cons, List.filter_cons, List.filter_nil]
    norm_num
  have hlt : (([((-1 : ℝ), (-50 : ℝ)), (0, -60), (2, -55)]).filter
      (fun p => 0 < p.1)).length < 2 := by
    rw [hf]
    norm_num
  exact ⟨hlt, (C5_fit_insufficient_data [((-1 : ℝ), (-50 : ℝ)), (0, -60), (2, -55)]).1 hlt⟩

/-- C6: on noiseless synthetic data `rssi = a0 + b0*log10(d)` over at
least 2 pairwise-distinct positive distances the fitter recovers
`a = a0`, `b = b0`, exponent `n = -b0/10` and `R² = 1` exactly; and
whenever all observed rssi values are identical (`ss_tot = 0`), it
defines `R² = 1` instead of raising a division error. -/
theorem C6_fit_exact_recovery :
    (∀ (a0 b0 : ℝ) (pts : List (ℝ × ℝ)), 2 ≤ pts.length →
        (∀ p ∈ pts, 0 < p.1) →
        pts.Pairwise (fun p q => p.1 ≠ q.1) →
        (∀ p ∈ pts, p.2 = a0 + b0 * log10 p.1) →
        fit_log_model pts = some (a0, b0, -b0 / 10, 1))
    ∧ (∀ (pts : List (ℝ × ℝ)) (c : ℝ),
        2 ≤ (pts.filter (fun p => 0 < p.1)).length →
        (∀ p ∈ pts, p.2 = c) →
        ∃ a b m, fit_log_model pts = some (a, b, m, 1)) := by
  constructor
  · intro a0 b0 pts hlen hpos hdist hgen
    have hfil : pts.filter (fun p => 0 < p.1) = pts := by
      rw [List.filter_eq_self]
      intro p hp
      simpa using hpos p hp
    rcases pts with _ | ⟨p, rest1⟩
    · rw [List.length_nil] at hlen
      omega
    rcases rest1 with _ | ⟨q, rest⟩
    · rw [List.length_cons, List.length_nil] at hlen
      omega
    have hpq : p.1 ≠ q.1 :=
      (List.pairwise_cons.mp hdist).1 q (List.mem_cons_self q rest)
    have hp1 : 0 < p.1 := hpos p (List.mem_cons_self p (q :: rest))
    have hq1 : 0 < q.1 :=
      hpos q (List.mem_cons_of_mem p (List.mem_cons_self q rest))
    have hxpq : log10 p.1 ≠ log10 q.1 := by
      intro he
      apply hpq
      simp only [log10] at he
      calc p.1 = (10 : ℝ) ^ Real.logb 10 p.1 :=
            (Real.rpow_logb (by norm_num) (by norm_num) hp1).symm
        _ = (10 : ℝ) ^ Real.logb 10 q.1 := by rw [he]
        _ = q.1 := Real.rpow_logb (by norm_num) (by norm_num) hq1
    have hys : fitYs (p :: q :: rest)
        = (fitXs (p :: q :: rest)).map (fun t => a0 + b0 * t) := by
      unfold fitYs fitXs
      rw [List.map_map]
      exact List.map_congr_left (fun r hr => hgen r hr)
    unfold fit_log_model
    rw [hfil, if_neg (by rw [List.length_cons, List.length_cons]; omega)]
    unfold fitCore
    rw [hys, olsAB_exact a0 b0 (fitXs (p :: q :: rest)) (log10 p.1) (log10 q.1)
      (List.mem_map_of_mem _ (List.mem_cons_self p (q :: rest)))
      (List.mem_map_of_mem _ (List.mem_cons_of_mem p (List.mem_cons_self q rest)))
      hxpq]
    rw [r2Of_exact a0 b0 (fitXs (p :: q :: rest))]
  · intro pts c h2 hy
    have hyf : ∀ y ∈ fitYs (pts.filter (fun p => 0 < p.1)), y = c := by
      intro y hyy
      obtain ⟨r, hr, rfl⟩ := List.mem_map.mp hyy
      exact hy r (List.mem_of_mem_filter hr)
    have hne : fitYs (pts.filter (fun p => 0 < p.1)) ≠ [] := by
      apply List.ne_nil_of_length_pos
      unfold fitYs
      rw [List.length_map]
      omega
    have hr2 : r2Of (fitXs (pts.filter (fun p => 0 < p.1)))
        (fitYs (pts.filter (fun p => 0 < p.1)))
        (olsAB (fitXs (pts.filter (fun p => 0 < p.1)))
          (fitYs (pts.filter (fun p => 0 < p.1)))).1
        (olsAB (fitXs (pts.filter (fun p => 0 < p.1)))
          (fitYs (pts.filter (fun p => 0 < p.1)))).2 = 1 := by
      unfold r2Of
      rw [ssTot_const c _ hne hyf]
      rw [if_neg (lt_irrefl 0)]
    refine ⟨(olsAB (fitXs (pts.filter (fun p => 0 < p.1)))
        (fitYs (pts.filter (fun p => 0 < p.1)))).1,
      (olsAB (fitXs (pts.filter (fun p => 0 < p.1)))
        (fitYs (pts.filter (fun p => 0 < p.1)))).2,
      -(olsAB (fitXs (pts.filter (fun p => 0 < p.1)))
        (fitYs (pts.filter (fun p => 0 < p.1)))).2 / 10, ?_⟩
    unfold fit_log_model
    rw [if_neg (by omega)]
    unfold fitCore
    rw [hr2]

/-- C6 witness: exact synthetic data over distances 1 and 10 with
`a0 = -50`, `b0 = -22` (so `rssi(1) = -50`, `rssi(10) = -72`), and a
constant-rssi degenerate instance. -/
theorem C6_fit_exact_recovery_witness :
    (2 ≤ ([((1 : ℝ), (-50 : ℝ)), (10, -72)]).length
      ∧ (∀ p ∈ [((1 : ℝ), (-50 : ℝ)), (10, -72)], 0 < p.1)
      ∧ ([((1 : ℝ), (-50 : ℝ)), (10, -72)]).Pairwise (fun p q => p.1 ≠ q.1)
      ∧ (∀ p ∈ [((1 : ℝ), (-50 : ℝ)), (10, -72)],
          p.2 = -50 + -22 * log10 p.1)
      ∧ fit_log_model [((1 : ℝ), (-50 : ℝ)), (10, -72)]
          = some (-50, -22, -(-22) / 10, 1))
    ∧ (2 ≤ (([((1 : ℝ), (-60 : ℝ)), (2, -60)]).filter (fun p => 0 < p.1)).length
      ∧ (∀ p ∈ [((1 : ℝ), (-60 : ℝ)), (2, -60)], p.2 = -60)
      ∧ ∃ a b m, fit_log_model [((1 : ℝ), (-60 : ℝ)), (2, -60)]
          = some (a, b, m, 1)) := by
  have hlen1 : 2 ≤ ([((1 : ℝ), (-50 : ℝ)), (10, -72)]).length := by
    rw [List.length_cons, List.length_cons, List.length_nil]
  have hpos1 : ∀ p ∈ [((1 : ℝ), (-50 : ℝ)), (10, -72)], 0 < p.1 := by
    intro p hp
    rcases List.mem_cons.mp hp with rfl | hp'
    · norm_num
    · rcases List.mem_cons.mp hp' with rfl | hp''
      · norm_num
      · exact absurd hp'' (List.not_mem_nil p)
  have hdist1 : ([((1 : ℝ), (-50 : ℝ)), (10, -72)]).Pairwise
      (fun p q => p.1 ≠ q.1) := by
    rw [List.pairwise_cons]
    refine ⟨?_, ?_⟩
    · intro q hq
      rcases List.mem_cons.mp hq with rfl | hq'
      · norm_num
      · exact absurd hq' (List.not_mem_nil q)
    · rw [List.pairwise_cons]
      exact ⟨fun q hq => absurd hq (List.not_mem_nil q), List.Pairwise.nil⟩
  have hgen1 : ∀ p ∈ [((1 : ℝ), (-50 : ℝ)), (10, -72)],
      p.2 = -50 + -22 * log10 p.1 := by
    intro p hp
    rcases List.mem_cons.mp hp with rfl | hp'
    · simp [log10, Real.logb_one]
    · rcases List.mem_cons.mp hp' with rfl | hp''
      · rw [show ((10 : ℝ), (-72 : ℝ)).2 = -72 from rfl,
          show ((10 : ℝ), (-72 : ℝ)).1 = 10 from rfl, log10,
          Real.logb_self_eq_one (by norm_num)]
        norm_num
      · exact absurd hp'' (List.not_mem_nil p)
  have h2len : 2 ≤ (([((1 : ℝ), (-60 : ℝ)), (2, -60)]).filter
      (fun p => 0 < p.1)).length := by
    have hf : ([((1 : ℝ), (-60 : ℝ)), (2, -60)]).filter (fun p => 0 < p.1)
        = [((1 : ℝ), (-60 : ℝ)), (2, -60)] := by
      rw [List.filter_cons, List.filter_cons, List.filter_nil]
      norm_num
    rw [hf, List.length_cons, List.length_cons, List.length_nil]
  have h2c : ∀ p ∈ [((1 : ℝ), (-60 : ℝ)), (2, -60)], p.2 = -60 := by
    intro p hp
    rcases List.mem_cons.mp hp with rfl | hp'
    · rfl
    · rcases List.mem_cons.mp hp' with rfl | hp''
      · rfl
      · exact absurd hp'' (List.not_mem_nil p)
  exact ⟨⟨hlen1, hpos1, hdist1, hgen1,
      C6_fit_exact_recovery.1 (-50) (-22) [((1 : ℝ), (-50 : ℝ)), (10, -72)]
        hlen1 hpos1 hdist1 hgen1⟩,
    ⟨h2len, h2c,
      C6_fit_exact_recovery.2 [((1 : ℝ), (-60 : ℝ)), (2, -60)] (-60) h2len h2c⟩⟩

/-- The running-best scan returns one of the candidates. -/
theorem argminAbsFold_mem (t : ℝ) :
    ∀ (ds : List ℚ) (b : ℚ), argminAbsFold t b ds ∈ b :: ds := by
  intro ds
  induction ds with
  | nil =>
    intro b
    simp only [argminAbsFold]
    exact List.mem_cons_self b []
  | cons d ds ih =>
    intro b
    simp only [argminAbsFold]
    by_cases hc : |((d : ℝ)) - t| < |((b : ℝ)) - t|
    · rw [if_pos hc]
      exact List.mem_cons_of_mem b (ih d)
    · rw [if_neg hc]
      rcases List.mem_cons.mp (ih b) with he | hm
      · rw [he]
        exact List.mem_cons_self b (d :: ds)
      · exact List.mem_cons_of_mem b (List.mem_cons_of_mem d hm)

/-- The running-best scan minimizes the distance to the target over all
candidates. -/
theorem argminAbsFold_min (t : ℝ) :
    ∀ (ds : List ℚ) (b : ℚ), ∀ d' ∈ b :: ds,
      |((argminAbsFold t b ds : ℚ) : ℝ) - t| ≤ |((d' : ℝ)) - t| := by
  intro ds
  induction ds with
  | nil =>
    intro b d' hd'
    rcases List.mem_cons.mp hd' with he | h
    · rw [he]
      simp only [argminAbsFold]
      exact le_rfl
    · exact absurd h (List.not_mem_nil d')
  | cons d ds ih =>
    intro b d' hd'
    simp only [argminAbsFold]
    by_cases hc : |((d : ℝ)) - t| < |((b : ℝ)) - t|
    · rw [if_pos hc]
      rcases List.mem_cons.mp hd' with he | hm
      · rw [he]
        exact le_trans (ih d d (List.mem_cons_self d ds)) (le_of_lt hc)
      · exact ih d d' hm
    · rw [if_neg hc]
      rcases List.mem_cons.mp hd' with he | hm
      · rw [he]
        exact ih b b (List.mem_cons_self b ds)
      · rcases List.mem_cons.mp hm with he2 | hm'
        · rw [he2]
          exact le_trans (ih b b (List.mem_cons_self b ds)) (not_lt.mp hc)
        · exact ih b d' (List.mem_cons_of_mem b hm')

/-- A key that appears among a dict's keys is found by lookup. -/
theorem alookup_mem_keys {α β : Type} [DecidableEq α] :
    ∀ (l : List (α × β)) (k : α), k ∈ l.map Prod.fst →
      ∃ v, alookup l k = some v := by
  intro l
  induction l with
  | nil => intro k hk; exact absurd hk (List.not_mem_nil k)
  | cons kv rest ih =>
    intro k hk
    obtain ⟨a, b⟩ := kv
    by_cases ha : a = k
    · exact ⟨b, by rw [alookup, if_pos ha]⟩
    · have hk' : k ∈ rest.map Prod.fst := by
        rcases List.mem_cons.mp hk with he | hm
        · exact absurd he.symm ha
        · exact hm
      obtain ⟨v, hv⟩ := ih k hk'
      exact ⟨v, by rw [alookup, if_neg ha]; exact hv⟩

/-- A successful lookup pinpoints a pair of the dict. -/
theorem alookup_mem {α β : Type} [DecidableEq α] :
    ∀ (l : List (α × β)) (a : α) (v : β), alookup l a = some v → (a, v) ∈ l := by
  intro l
  induction l with
  | nil => intro a v h; exact Option.noConfusion h
  | cons kv rest ih =>
    intro a v h
    obtain ⟨k, w⟩ := kv
    by_cases hk : k = a
    · rw [alookup, if_pos hk] at h
      injection h with hw
      rw [← hk, ← hw]
      exact List.mem_cons_self (k, w) rest
    · rw [alookup, if_neg hk] at h
      exact List.mem_cons_of_mem (k, w) (ih a v h)

/-- The inverse path-loss model is antitone in the rssi argument when the
path-loss exponent is positive: weaker signal means larger distance. -/
theorem rssi_to_dist_anti (r1 n x y : ℝ) (hn : 0 < n) (hxy : x ≤ y) :
    rssi_to_dist y r1 n ≤ rssi_to_dist x r1 n := by
  unfold rssi_to_dist
  rw [Real.rpow_le_rpow_left_iff (by norm_num)]
  rw [div_le_div_right (by positivity)]
  exact sub_le_sub_left hxy r1

/-- C9: the estimator `estimate_dist_band` (over any calibration table whose per-ip
stats have at least one positive known distance, as the shipped
`CALIBRATION_STATS` does) returns `none` exactly when the table has no
entry for the transmitter; otherwise, for `n > 0`, it returns
`(d_est, d_min, d_max)` with `d_est = rssi_to_dist rssi rssi1m n`, the
rssi spreads `|median - p5|` and `|p95 - median|` taken from a table row
whose positive known distance is nearest (first-minimal) to `d_est`
among the positive distances, and `d_min ≤ d_max` because the band is
ordered as min/max of the two projected candidates.  It is a pure
function of its arguments (no side effects by construction). -/
theorem C9_estimate_dist_band_contract (table : CalTable) (ip : String)
    (rssi r1 n : ℝ) (hn : 0 < n)
    (hpos : ∀ pr ∈ table, ((pr.2.map Prod.fst).filter (fun d => 0 < d)) ≠ []) :
    (estimate_dist_band table ip rssi r1 n = none ↔ alookup table ip = none)
    ∧ ∀ stats, alookup table ip = some stats →
        ∃ dn row,
          (0 < dn ∧ dn ∈ (stats.map Prod.fst).filter (fun d => 0 < d))
          ∧ alookup stats dn = some row
          ∧ (∀ d' ∈ (stats.map Prod.fst).filter (fun d => 0 < d),
              |((dn : ℝ)) - rssi_to_dist rssi r1 n|
                ≤ |((d' : ℝ)) - rssi_to_dist rssi r1 n|)
          ∧ estimate_dist_band table ip rssi r1 n
            = some (rssi_to_dist rssi r1 n,
                min (rssi_to_dist (rssi + |((row.p95 : ℝ)) - ((row.median : ℝ))|) r1 n)
                  (rssi_to_dist (rssi - |((row.median : ℝ)) - ((row.p5 : ℝ))|) r1 n),
                max (rssi_to_dist (rssi + |((row.p95 : ℝ)) - ((row.median : ℝ))|) r1 n)
                  (rssi_to_dist (rssi - |((row.median : ℝ)) - ((row.p5 : ℝ))|) r1 n))
          ∧ min (rssi_to_dist (rssi + |((row.p95 : ℝ)) - ((row.median : ℝ))|) r1 n)
              (rssi_to_dist (rssi - |((row.median : ℝ)) - ((row.p5 : ℝ))|) r1 n)
            ≤ max (rssi_to_dist (rssi + |((row.p95 : ℝ)) - ((row.median : ℝ))|) r1 n)
              (rssi_to_dist (rssi - |((row.median : ℝ)) - ((row.p5 : ℝ))|) r1 n) := by
  cases halook : alookup table ip with
  | none =>
    have hestnone : estimate_dist_band table ip rssi r1 n = none := by
      unfold estimate_dist_band
      rw [halook, Option.none_bind]
    refine ⟨⟨fun _ => rfl, fun _ => hestnone⟩, ?_⟩
    · intro stats hs
      exact Option.noConfusion hs
  | some stats =>
    have hposne : (stats.map Prod.fst).filter (fun d => 0 < d) ≠ [] :=
      hpos (ip, stats) (alookup_mem table ip stats halook)
    obtain ⟨d0, rest, hpr⟩ := List.exists_cons_of_ne_nil hposne
    have hcal : calDistsOf stats = d0 :: rest := by
      unfold calDistsOf
      rw [if_neg hposne]
      exact hpr
    have hmem : argminAbsFold (rssi_to_dist rssi r1 n) d0 rest ∈ d0 :: rest :=
      argminAbsFold_mem _ rest d0
    have hmemf : argminAbsFold (rssi_to_dist rssi r1 n) d0 rest
        ∈ (stats.map Prod.fst).filter (fun d => 0 < d) := by
      rw [hpr]
      exact hmem
    have hdnpos : 0 < argminAbsFold (rssi_to_dist rssi r1 n) d0 rest := by
      have h := (List.mem_filter.mp hmemf).2
      exact of_decide_eq_true h
    have hdnkeys : argminAbsFold (rssi_to_dist rssi r1 n) d0 rest
        ∈ stats.map Prod.fst := (List.mem_filter.mp hmemf).1
    obtain ⟨row, hrow⟩ := alookup_mem_keys stats _ hdnkeys
    have hargmin : argminAbs (calDistsOf stats) (rssi_to_dist rssi r1 n)
        = some (argminAbsFold (rssi_to_dist rssi r1 n) d0 rest) := by
      rw [hcal]
      rfl
    have hband : estimate_dist_band table ip rssi r1 n
        = some (rssi_to_dist rssi r1 n,
            min (rssi_to_dist (rssi + |((row.p95 : ℝ)) - ((row.median : ℝ))|) r1 n)
              (rssi_to_dist (rssi - |((row.median : ℝ)) - ((row.p5 : ℝ))|) r1 n),
            max (rssi_to_dist (rssi + |((row.p95 : ℝ)) - ((row.median : ℝ))|) r1 n)
              (rssi_to_dist (rssi - |((row.median : ℝ)) - ((row.p5 : ℝ))|) r1 n)) := by
      unfold estimate_dist_band
      rw [halook, Option.some_bind, hargmin, Option.some_bind, hrow,
        Option.some_bind]
    constructor
    · constructor
      · intro h
        rw [hband] at h
        exact Option.noConfusion h
      · intro h
        exact Option.noConfusion h
    · intro stats' hs'
      injection hs' with hse
      subst hse
      refine ⟨argminAbsFold (rssi_to_dist rssi r1 n) d0 rest, row,
        ⟨hdnpos, hmemf⟩, hrow, ?_, hband, min_le_max⟩
      intro d' hd'
      rw [hpr] at hd'
      exact argminAbsFold_min (rssi_to_dist rssi r1 n) rest d0 d' hd'

/-- C10: whenever `estimate_dist_band` returns a band, the point estimate
lies inside it: `d_min ≤ d_est ≤ d_max`, for every table, transmitter,
rssi and parameters with `n > 0` (antitonicity of the inverse model plus
the non-negative rssi spreads). -/
theorem C10_band_contains_estimate (table : CalTable) (ip : String)
    (rssi r1 n : ℝ) (hn : 0 < n) (e lo hi : ℝ)
    (hband : estimate_dist_band table ip rssi r1 n = some (e, lo, hi)) :
    lo ≤ e ∧ e ≤ hi := by
  unfold estimate_dist_band at hband
  rcases Option.bind_eq_some.mp hband with ⟨stats, halook, h2⟩
  rcases Option.bind_eq_some.mp h2 with ⟨nearest, hmin, h3⟩
  rcases Option.bind_eq_some.mp h3 with ⟨row, hrow, h4⟩
  injection h4 with htup
  rw [Prod.mk.injEq, Prod.mk.injEq] at htup
  obtain ⟨he, hlo, hhi⟩ := htup
  have hInner : rssi_to_dist (rssi + |((row.p95 : ℝ)) - ((row.median : ℝ))|) r1 n
      ≤ rssi_to_dist rssi r1 n :=
    rssi_to_dist_anti r1 n rssi _ hn (le_add_of_nonneg_right (abs_nonneg _))
  have hOuter : rssi_to_dist rssi r1 n
      ≤ rssi_to_dist (rssi - |((row.median : ℝ)) - ((row.p5 : ℝ))|) r1 n :=
    rssi_to_dist_anti r1 n _ rssi hn (sub_le_self rssi (abs_nonneg _))
  constructor
  · rw [← he, ← hlo]
    exact le_trans (min_le_left _ _) hInner
  · rw [← he, ← hhi]
    exact le_trans hOuter (le_max_right _ _)

/-- C9 witness: the contract instantiated on a concrete one-entry table
at `rssi = rssi1m = -55`, `n = 1`. -/
theorem C9_estimate_dist_band_contract_witness :
    ((0 : ℝ) < 1
      ∧ ∀ pr ∈ sampleCalTable, ((pr.2.map Prod.fst).filter (fun d => 0 < d)) ≠ [])
    ∧ ((estimate_dist_band sampleCalTable ("X") (-55) (-55) 1 = none
        ↔ alookup sampleCalTable ("X") = none)
      ∧ ∀ stats, alookup sampleCalTable ("X") = some stats →
          ∃ dn row,
            (0 < dn ∧ dn ∈ (stats.map Prod.fst).filter (fun d => 0 < d))
            ∧ alookup stats dn = some row
            ∧ (∀ d' ∈ (stats.map Prod.fst).filter (fun d => 0 < d),
                |((dn : ℝ)) - rssi_to_dist (-55) (-55) 1|
                  ≤ |((d' : ℝ)) - rssi_to_dist (-55) (-55) 1|)
            ∧ estimate_dist_band sampleCalTable ("X") (-55) (-55) 1
              = some (rssi_to_dist (-55) (-55) 1,
                  min (rssi_to_dist (-55 + |((row.p95 : ℝ)) - ((row.median : ℝ))|) (-55) 1)
                    (rssi_to_dist (-55 - |((row.median : ℝ)) - ((row.p5 : ℝ))|) (-55) 1),
                  max (rssi_to_dist (-55 + |((row.p95 : ℝ)) - ((row.median : ℝ))|) (-55) 1)
                    (rssi_to_dist (-55 - |((row.median : ℝ)) - ((row.p5 : ℝ))|) (-55) 1))
            ∧ min (rssi_to_dist (-55 + |((row.p95 : ℝ)) - ((row.median : ℝ))|) (-55) 1)
                (rssi_to_dist (-55 - |((row.median : ℝ)) - ((row.p5 : ℝ))|) (-55) 1)
              ≤ max (rssi_to_dist (-55 + |((row.p95 : ℝ)) - ((row.median : ℝ))|) (-55) 1)
                (rssi_to_dist (-55 - |((row.median : ℝ)) - ((row.p5 : ℝ))|) (-55) 1)) :=
  ⟨⟨by norm_num, by decide⟩,
    C9_estimate_dist_band_contract sampleCalTable ("X") (-55) (-55) 1
      (by norm_num) (by decide)⟩

/-- C10 witness: the band at the concrete one-entry table contains the
point estimate. -/
theorem C10_band_contains_estimate_witness :
    ((0 : ℝ) < 1)
    ∧ estimate_dist_band sampleCalTable ("X") (-55) (-55) 1
      = some (rssi_to_dist (-55) (-55) 1,
          min (rssi_to_dist (-55 + |(((-56 : ℚ) : ℝ)) - (((-58 : ℚ) : ℝ))|) (-55) 1)
            (rssi_to_dist (-55 - |(((-58 : ℚ) : ℝ)) - (((-59 : ℚ) : ℝ))|) (-55) 1),
          max (rssi_to_dist (-55 + |(((-56 : ℚ) : ℝ)) - (((-58 : ℚ) : ℝ))|) (-55) 1)
            (rssi_to_dist (-55 - |(((-58 : ℚ) : ℝ)) - (((-59 : ℚ) : ℝ))|) (-55) 1))
    ∧ (min (rssi_to_dist (-55 + |(((-56 : ℚ) : ℝ)) - (((-58 : ℚ) : ℝ))|) (-55) 1)
          (rssi_to_dist (-55 - |(((-58 : ℚ) : ℝ)) - (((-59 : ℚ) : ℝ))|) (-55) 1)
        ≤ rssi_to_dist (-55) (-55) 1
      ∧ rssi_to_dist (-55) (-55) 1
        ≤ max (rssi_to_dist (-55 + |(((-56 : ℚ) : ℝ)) - (((-58 : ℚ) : ℝ))|) (-55) 1)
            (rssi_to_dist (-55 - |(((-58 : ℚ) : ℝ)) - (((-59 : ℚ) : ℝ))|) (-55) 1)) :=
  ⟨by norm_num, rfl,
    C10_band_contains_estimate sampleCalTable ("X") (-55) (-55) 1 (by norm_num)
      (rssi_to_dist (-55) (-55) 1)
      (min (rssi_to_dist (-55 + |(((-56 : ℚ) : ℝ)) - (((-58 : ℚ) : ℝ))|) (-55) 1)
        (rssi_to_dist (-55 - |(((-58 : ℚ) : ℝ)) - (((-59 : ℚ) : ℝ))|) (-55) 1))
      (max (rssi_to_dist (-55 + |(((-56 : ℚ) : ℝ)) - (((-58 : ℚ) : ℝ))|) (-55) 1)
        (rssi_to_dist (-55 - |(((-58 : ℚ) : ℝ)) - (((-59 : ℚ) : ℝ))|) (-55) 1))
      rfl⟩
